import Mathlib

/-!
Verification of the compression-preview pipeline of the llm-compressor-ui
repository.  The pipeline logic lives in `src/App.tsx` (and a structurally
identical variant of the same component elsewhere in the repository): the
debounced `runOptimization` body, the derived `stats`, `handleVerify` and
`handleClear`, together with the tokenizer adapter `src/utils/tokenizer.ts`
and the persistent-state hook `usePersistentState`.

External collaborators (`JSON.parse`, `optimize`, `restore` from the
`llm-chat-msg-compressor` package, the `js-tiktoken` encoder, and the
browser's local storage) are modelled as explicit function parameters that
either return a value or fail with a thrown message, exactly as the
component consumes them.  `JSON.stringify` is modelled concretely over an
inductive JSON value type, since the pipeline relies on its output being a
concrete (non-empty) string.
-/

namespace CompressorUI

/-- JSON-compatible values as produced by `JSON.parse` and consumed by
`optimize`/`restore`.  Numbers are modelled as integers; no claim under
verification inspects numeric payloads. -/
inductive Json where
  | null
  | bool (b : Bool)
  | num (n : Int)
  | str (s : String)
  | arr (items : List Json)
  | obj (fields : List (String × Json))

/-- Decimal digit characters of a natural number, most significant first.
Implemented with explicit fuel so that the kernel can evaluate it; the fuel
`n + 1` always suffices because the argument shrinks by a factor of ten. -/
def natDigitsAux : Nat → Nat → List Char
  | 0, _ => []
  | fuel + 1, n =>
    if n < 10 then [Char.ofNat (48 + n)]
    else natDigitsAux fuel (n / 10) ++ [Char.ofNat (48 + n % 10)]

/-- Decimal rendering of a natural number, as JavaScript number-to-string
produces for integral values. -/
def natRender (n : Nat) : String := String.mk (natDigitsAux (n + 1) n)

/-- Decimal rendering of an integer (JavaScript number-to-string for
integral values). -/
def intRender (n : Int) : String :=
  if n < 0 then "-" ++ natRender n.natAbs else natRender n.natAbs

/-- Hexadecimal digit character (lowercase), as used by `JSON.stringify`
for control-character escapes. -/
def hexDigitChar (n : Nat) : Char :=
  if n < 10 then Char.ofNat (48 + n) else Char.ofNat (87 + n)

/-- Two-digit lowercase hexadecimal rendering of a byte value. -/
def hexByte (n : Nat) : String := String.mk [hexDigitChar (n / 16), hexDigitChar (n % 16)]

/-- Escape of a single character inside a JSON string literal, following
the `JSON.stringify` quoting rules. -/
def escChar (c : Char) : String :=
  if c = '"' then "\\\""
  else if c = '\\' then "\\\\"
  else if c = '\n' then "\\n"
  else if c = '\t' then "\\t"
  else if c = '\r' then "\\r"
  else if c = Char.ofNat 8 then "\\b"
  else if c = Char.ofNat 12 then "\\f"
  else if c.toNat < 32 then "\\u00" ++ hexByte c.toNat
  else String.singleton c

/-- Quoted JSON string literal, following `JSON.stringify`. -/
def quoteStr (s : String) : String :=
  "\"" ++ String.join (s.data.map escChar) ++ "\""

mutual
/-- Compact serialization `JSON.stringify(value)`, used by `handleVerify`
for its semantic-equality check. -/
def render : Json → String
  | .null => "null"
  | .bool true => "true"
  | .bool false => "false"
  | .num n => intRender n
  | .str s => quoteStr s
  | .arr items => "[" ++ renderItems items ++ "]"
  | .obj fields => "\x7b" ++ renderFields fields ++ "\x7d"

/-- Comma-joined compact serialization of array items. -/
def renderItems : List Json → String
  | [] => ""
  | [x] => render x
  | x :: xs => render x ++ "," ++ renderItems xs

/-- Comma-joined compact serialization of object members. -/
def renderFields : List (String × Json) → String
  | [] => ""
  | [(k, v)] => quoteStr k ++ ":" ++ render v
  | (k, v) :: xs => quoteStr k ++ ":" ++ render v ++ "," ++ renderFields xs
end

mutual
/-- Pretty serialization `JSON.stringify(value, null, 2)`, used by the
pipeline to fill the optimized and restored output panes.  `ind` is the
indentation accumulated from the enclosing values. -/
def render2 (ind : String) : Json → String
  | .null => "null"
  | .bool true => "true"
  | .bool false => "false"
  | .num n => intRender n
  | .str s => quoteStr s
  | .arr [] => "[]"
  | .arr (x :: xs) => "[\n" ++ render2Items (ind ++ "  ") (x :: xs) ++ "\n" ++ ind ++ "]"
  | .obj [] => "\x7b\x7d"
  | .obj (f :: fs) => "\x7b\n" ++ render2Fields (ind ++ "  ") (f :: fs) ++ "\n" ++ ind ++ "\x7d"

/-- Indented, comma-and-newline-joined serialization of array items. -/
def render2Items (ind : String) : List Json → String
  | [] => ""
  | [x] => ind ++ render2 ind x
  | x :: xs => ind ++ render2 ind x ++ ",\n" ++ render2Items ind xs

/-- Indented, comma-and-newline-joined serialization of object members. -/
def render2Fields (ind : String) : List (String × Json) → String
  | [] => ""
  | [(k, v)] => ind ++ quoteStr k ++ ": " ++ render2 ind v
  | (k, v) :: fs => ind ++ quoteStr k ++ ": " ++ render2 ind v ++ ",\n" ++ render2Fields ind fs
end

/-- Whitespace in the sense of JavaScript's `String.prototype.trim`
(the code points the pipeline's blankness test can strip). -/
def isJsSpace (c : Char) : Bool :=
  c = ' ' || c = '\t' || c = '\n' || c = '\r' ||
  c = Char.ofNat 11 || c = Char.ofNat 12 || c = Char.ofNat 0xA0 || c = Char.ofNat 0xFEFF

/-- Blankness test `!text.trim()` used at the head of the recompute body
and inside the stats guard: true exactly when every character is
whitespace (trimming leaves the empty string). -/
def isBlank (s : String) : Bool := s.data.all isJsSpace

/-- Compression options, `type Options` in App.tsx.  The second source
field enables lossy optimizations; its source name is a reserved word in
Lean, so it is bound here as `lossy`. -/
structure Options where
  aggressive : Bool
  lossy : Bool
deriving DecidableEq

/-- Error state `{ message: string; line?: number }` shown in the editor
pane. -/
structure EditorError where
  message : String
  line : Option Nat
deriving DecidableEq

/-- The pipeline's mutable state: the `input`, `output`, `restored` and
`error` React state variables of the App component. -/
structure PipelineState where
  input : String
  output : String
  restored : String
  error : Option EditorError
deriving DecidableEq

/-- External collaborators of the recompute body: the host `JSON.parse`
and the library's `optimize`/`restore`.  Each either returns a value or
fails with the message of the thrown error. -/
structure CompressionEnv where
  parse : String → Except String Json
  optimize : Json → Options → Except String Json
  restore : Json → Except String Json

/-- Character sequence of the literal part of the regular expression
`/at line (\d+)/` used on error messages. -/
def atLinePattern : List Char := ['a', 't', ' ', 'l', 'i', 'n', 'e', ' ']

/-- Match a literal character pattern at the head of a list, returning the
remainder on success. -/
def leadsWith : List Char → List Char → Option (List Char)
  | [], rest => some rest
  | _ :: _, [] => none
  | p :: ps, c :: cs => if c = p then leadsWith ps cs else none

/-- Longest run of decimal digits at the head of a list: the text matched
by the capture group `(\d+)`. -/
def takeDigits : List Char → List Char
  | [] => []
  | c :: cs => if c.isDigit then c :: takeDigits cs else []

/-- Decimal value of a digit run, as `parseInt` computes it for an
all-digit string. -/
def digitsVal (ds : List Char) : Nat :=
  ds.foldl (fun acc c => acc * 10 + (c.toNat - 48)) 0

/-- Attempt of the regex `/at line (\d+)/` anchored at the current
position: the literal text followed by at least one digit. -/
def matchAtLineHere (l : List Char) : Option Nat :=
  match leadsWith atLinePattern l with
  | none => none
  | some rest =>
    match takeDigits rest with
    | [] => none
    | ds => some (digitsVal ds)

/-- Unanchored search of `/at line (\d+)/`: the first position where the
pattern matches wins, as with `String.prototype.match`. -/
def findAtLine : List Char → Option Nat
  | [] => none
  | c :: cs =>
    match matchAtLineHere (c :: cs) with
    | some n => some n
    | none => findAtLine cs

/-- Line-number extraction from an error message:
`message.match(/at line (\d+)/)` followed by `parseInt(match[1])`, and
`undefined` when the pattern does not match. -/
def extractLine (msg : String) : Option Nat := findAtLine msg.data

/-- Catch clause of the recompute body: record the thrown message with the
optional extracted line, and clear both output panes.  (The source may
have set the output before the throw; the catch clears it again, so the
net state is the one recorded here.) -/
def applyFailure (msg : String) (s : PipelineState) : PipelineState :=
  { s with output := "", restored := "", error := some ⟨msg, extractLine msg⟩ }

/-- Body of the debounced `runOptimization` callback (App.tsx lines
138-173): on blank input clear everything; otherwise parse, optimize,
serialize, restore, serialize, and on any thrown failure fall into
`applyFailure`.  The function is total: every failure of a collaborator is
converted into a state value, never re-raised. -/
def runOptimizationBody (env : CompressionEnv) (val : String) (opts : Options)
    (s : PipelineState) : PipelineState :=
  if isBlank val then
    { s with output := "", restored := "", error := none }
  else
    match env.parse val with
    | .error msg => applyFailure msg s
    | .ok parsed =>
      match env.optimize parsed opts with
      | .error msg => applyFailure msg s
      | .ok optimized =>
        match env.restore optimized with
        | .error msg => applyFailure msg s
        | .ok restoredData =>
          { s with
            output := render2 "" optimized,
            restored := render2 "" restoredData,
            error := none }

/-- The `handleClear` handler (App.tsx lines 278-284): it invokes the four
state setters directly — not the debounced `runOptimization` — so the
cleared state is reached in the same synchronous step. -/
def handleClear (_s : PipelineState) : PipelineState :=
  { input := "", output := "", restored := "", error := none }

/-- Outcome of the user-triggered `verify` diagnostic, reported as a toast
and kept apart from the pipeline's `EditorError`. -/
inductive VerifyResult where
  | passed
  | mismatch
  | invalidJson
deriving DecidableEq

/-- The `handleVerify` handler (App.tsx lines 251-276): parse the current
input and the current optimized output, restore the parsed output, and
compare compact serializations; any thrown failure is caught and reported
as `invalidJson`.  The handler invokes no state setter, which the
embedding expresses by returning the state unchanged alongside the
diagnostic. -/
def handleVerify (env : CompressionEnv) (s : PipelineState) :
    VerifyResult × PipelineState :=
  match env.parse s.input with
  | .error _ => (.invalidJson, s)
  | .ok parsedInput =>
    match env.parse s.output with
    | .error _ => (.invalidJson, s)
    | .ok parsedOutput =>
      match env.restore parsedOutput with
      | .error _ => (.invalidJson, s)
      | .ok restoredValue =>
        (if render parsedInput = render restoredValue then .passed else .mismatch, s)

/-- A populated compression result: both output panes hold non-empty
serialized values. -/
def resultPopulated (s : PipelineState) : Prop :=
  s.output ≠ "" ∧ s.restored ≠ ""

/-- Valid steady state: compression result populated, no editor error. -/
def IsValid (s : PipelineState) : Prop :=
  resultPopulated s ∧ s.error = none

/-- Invalid steady state: compression result cleared, editor error
populated. -/
def IsInvalid (s : PipelineState) : Prop :=
  s.output = "" ∧ s.restored = "" ∧ s.error ≠ none

/-- Empty steady state: blank raw input, no result, no error. -/
def IsEmptyState (s : PipelineState) : Prop :=
  isBlank s.input = true ∧ s.output = "" ∧ s.restored = "" ∧ s.error = none

/-- Token counting of `src/utils/tokenizer.ts`: empty or absent text
yields 0; otherwise the external encoder's token list is counted, and if
encoding throws, the heuristic `Math.ceil(text.length / 4)` is returned
instead.  The external `js-tiktoken` encoder is the `encode` parameter. -/
def countTokens (encode : String → Except String (List Nat)) :
    Option String → Nat
  | none => 0
  | some t =>
    if t.isEmpty then 0
    else
      match encode t with
      | .ok tokens => tokens.length
      | .error _ => (t.length + 3) / 4

/-- Inline token heuristic `Math.ceil(input.length / 4)` used by the stats
memo of the monolithic App.tsx (lines 182 and 199). -/
def heuristicTokens (t : String) : Nat := (t.length + 3) / 4

/-- Rounding to tenths, half away from zero: the integer `n` nearest to
`10 * x`, ties toward positive infinity, computed as
`Int.fdiv (20 * num + den) (2 * den)` which equals the floor of
`10 * x + 1 / 2`. -/
def roundTenths (x : ℚ) : Int :=
  Int.fdiv (20 * x.num + (x.den : Int)) (2 * (x.den : Int))

/-- Formatting `value.toFixed(1)` of a percentage, modelled over the exact
rationals: round to tenths and print with one decimal digit. -/
def toFixed1 (x : ℚ) : String :=
  let n := roundTenths x
  let a := n.natAbs
  (if n < 0 then "-" else "") ++ natRender (a / 10) ++ "." ++ natRender (a % 10)

/-- Derived statistics record of the stats memo. -/
structure Stats where
  inputSize : Nat
  outputSize : Nat
  savings : String
  inputTokens : Nat
  outputTokens : Nat
  tokenSavings : String
deriving DecidableEq

/-- The stats memo (App.tsx lines 180-210 and the identical block of the
tokenizer-based App variant, which differ only in the token-counting
function `tok`): byte sizes via UTF-8 length (`new Blob([s]).size`), a
zeroed record when an error is present, the input is blank, or the output
is empty, and otherwise exact percentage computations guarded against
division by zero. -/
def stats (tok : String → Nat) (s : PipelineState) : Stats :=
  let inputSize := s.input.utf8ByteSize
  let inputTokens := tok s.input
  if s.error.isSome || isBlank s.input || s.output.isEmpty then
    { inputSize := inputSize, outputSize := 0, savings := "0.0",
      inputTokens := inputTokens, outputTokens := 0, tokenSavings := "0.0" }
  else
    let outputSize := s.output.utf8ByteSize
    let savings : ℚ :=
      if inputSize > 0 then ((inputSize : ℚ) - (outputSize : ℚ)) / (inputSize : ℚ) * 100 else 0
    let outputTokens := tok s.output
    let tokenSavings : ℚ :=
      if inputTokens > 0 then
        ((inputTokens : ℚ) - (outputTokens : ℚ)) / (inputTokens : ℚ) * 100
      else 0
    { inputSize := inputSize, outputSize := outputSize, savings := toFixed1 savings,
      inputTokens := inputTokens, outputTokens := outputTokens,
      tokenSavings := toFixed1 tokenSavings }

/-- Stats memo of the monolithic App.tsx: token counts by the inline
heuristic. -/
def statsApp (s : PipelineState) : Stats := stats heuristicTokens s

/-- Stats memo of the App variant that imports the tokenizer adapter:
token counts via `countTokens` over the external encoder. -/
def statsModular (encode : String → Except String (List Nat))
    (s : PipelineState) : Stats :=
  stats (fun t => countTokens encode (some t)) s

/-- Initial value of `usePersistentState(key, defaultValue)`: read the
stored string for the key; if present, attempt JSON decoding, falling back
to the raw string when decoding throws; if absent, use the default.
`store` is the browser's local storage, `parse` the host `JSON.parse`. -/
def usePersistentStateInit (parse : String → Except String Json)
    (store : String → Option String) (key : String) (defaultValue : Json) : Json :=
  match store key with
  | some saved =>
    match parse saved with
    | .ok v => v
    | .error _ => Json.str saved
  | none => defaultValue

/-- Storage key of the persisted compression options. -/
def optionsStorageKey : String := "llm-compressor-options"

/-- Default options object of the App component. -/
def defaultOptionsJson : Json :=
  Json.obj [("aggressive", Json.bool false), ("unsafe", Json.bool false)]

/-- Initial options state of App.tsx (lines 107-110):
`saved ? JSON.parse(saved) : { aggressive: false, unsafe: false }`.  A
stored empty string is falsy and yields the default; any other stored
string is passed to `JSON.parse` with no surrounding try/catch, so a
decoding failure escapes the initializer — the embedding returns it as an
`Except.error`. -/
def optionsInitialState (parse : String → Except String Json)
    (store : String → Option String) : Except String Json :=
  match store optionsStorageKey with
  | none => .ok defaultOptionsJson
  | some saved =>
    if saved.isEmpty then .ok defaultOptionsJson else parse saved

/-- Trailing-edge debounce scheduler.  Modelled from the spec: the
external `lodash.debounce` primitive wrapping the recompute body — a call
at time `t` cancels any pending invocation and schedules the new arguments
for time `t + wait`; a pending invocation fires once its time is reached
before any further call, and an undisturbed pending invocation fires when
the burst ends.  The returned list is the sequence of arguments the
wrapped recompute body actually executes with. -/
def debounceRun {α : Type} (wait : Nat) :
    List (Nat × α) → Option (α × Nat) → List α
  | [], none => []
  | [], some (a, _) => [a]
  | (t, a) :: rest, none => debounceRun wait rest (some (a, t + wait))
  | (t, a) :: rest, some (pa, ft) =>
    if ft ≤ t then pa :: debounceRun wait rest (some (a, t + wait))
    else debounceRun wait rest (some (a, t + wait))

/-- Teardown of the effect that schedules recomputation (App.tsx lines
175-177): the effect returns no cleanup function and nothing ever calls
the debounced function's cancel method, so unmounting leaves a pending
debounced invocation exactly as it was. -/
def effectTeardown {α : Type} (pending : Option (α × Nat)) : Option (α × Nat) :=
  pending

theorem data_ne_nil_imp_ne_empty (s : String) (h : s.data ≠ []) : s ≠ "" :=
  fun he => h (by rw [he])

theorem eq_empty_of_data_eq_nil (s : String) (h : s.data = []) : s = "" := by
  cases s with
  | mk data => rw [show data = [] from h]

theorem append_ne_empty_of_left (s t : String) (h : s ≠ "") : s ++ t ≠ "" := by
  intro he
  have h2 := congrArg String.data he
  rw [String.data_append] at h2
  exact h (eq_empty_of_data_eq_nil s (List.append_eq_nil.mp h2).1)

theorem natDigitsAux_ne_nil (fuel n : Nat) : natDigitsAux (fuel + 1) n ≠ [] := by
  unfold natDigitsAux
  split <;> simp

theorem natRender_ne_empty (n : Nat) : natRender n ≠ "" :=
  fun he => natDigitsAux_ne_nil n n (congrArg String.data he)

theorem intRender_ne_empty (n : Int) : intRender n ≠ "" := by
  by_cases h : n < 0
  · simp only [intRender, if_pos h]
    exact append_ne_empty_of_left _ _ (by decide)
  · simp only [intRender, if_neg h]
    exact natRender_ne_empty _

theorem quoteStr_ne_empty (s : String) : quoteStr s ≠ "" := by
  unfold quoteStr
  exact append_ne_empty_of_left _ _ (append_ne_empty_of_left _ _ (by decide))

theorem render2_ne_empty (ind : String) (j : Json) : render2 ind j ≠ "" := by
  cases j with
  | null => simp only [render2]; decide
  | bool b => cases b <;> (simp only [render2]; decide)
  | num n => simp only [render2]; exact intRender_ne_empty n
  | str s => simp only [render2]; exact quoteStr_ne_empty s
  | arr items =>
    cases items with
    | nil => simp only [render2]; decide
    | cons x xs =>
      simp only [render2]
      exact append_ne_empty_of_left _ _ (append_ne_empty_of_left _ _
        (append_ne_empty_of_left _ _ (append_ne_empty_of_left _ _ (by decide))))
  | obj fields =>
    cases fields with
    | nil => simp only [render2]; decide
    | cons f fs =>
      simp only [render2]
      exact append_ne_empty_of_left _ _ (append_ne_empty_of_left _ _
        (append_ne_empty_of_left _ _ (append_ne_empty_of_left _ _ (by decide))))

theorem leadsWith_eq_some :
    ∀ (p l r : List Char), leadsWith p l = some r → l = p ++ r := by
  intro p
  induction p with
  | nil =>
    intro l r h
    simp only [leadsWith, Option.some.injEq] at h
    simp [h]
  | cons a ps ih =>
    intro l r h
    cases l with
    | nil => simp [leadsWith] at h
    | cons c cs =>
      simp only [leadsWith] at h
      split at h
      · rename_i hc
        rw [hc, List.cons_append]
        exact congrArg _ (ih cs r h)
      · exact absurd h (by simp)

theorem leadsWith_append (p r : List Char) : leadsWith p (p ++ r) = some r := by
  induction p with
  | nil => rfl
  | cons a ps ih => simp [leadsWith, ih]

theorem matchAtLineHere_isSome (l : List Char) :
    (matchAtLineHere l).isSome = true ↔
      ∃ d l₂, l = atLinePattern ++ d :: l₂ ∧ d.isDigit = true := by
  constructor
  · intro h
    unfold matchAtLineHere at h
    cases hl : leadsWith atLinePattern l with
    | none => rw [hl] at h; simp at h
    | some rest =>
      rw [hl] at h
      have hrest := leadsWith_eq_some _ _ _ hl
      cases rest with
      | nil => simp [takeDigits] at h
      | cons c cs =>
        by_cases hc : c.isDigit
        · exact ⟨c, cs, hrest, hc⟩
        · simp [takeDigits, hc] at h
  · rintro ⟨d, l₂, rfl, hd⟩
    unfold matchAtLineHere
    rw [leadsWith_append]
    simp [takeDigits, hd]

theorem findAtLine_isSome (l : List Char) :
    (findAtLine l).isSome = true ↔
      ∃ l₁ d l₂, l = l₁ ++ atLinePattern ++ d :: l₂ ∧ d.isDigit = true := by
  induction l with
  | nil =>
    constructor
    · intro h; simp [findAtLine] at h
    · rintro ⟨l₁, d, l₂, h, -⟩
      exact absurd h.symm (by simp [atLinePattern])
  | cons c cs ih =>
    constructor
    · intro h
      cases hm : matchAtLineHere (c :: cs) with
      | some n =>
        obtain ⟨d, l₂, heq, hd⟩ := (matchAtLineHere_isSome (c :: cs)).mp (by rw [hm]; rfl)
        exact ⟨[], d, l₂, by simpa using heq, hd⟩
      | none =>
        simp only [findAtLine, hm] at h
        obtain ⟨l₁, d, l₂, heq, hd⟩ := ih.mp h
        exact ⟨c :: l₁, d, l₂, by simp [heq], hd⟩
    · rintro ⟨l₁, d, l₂, heq, hd⟩
      cases hm : matchAtLineHere (c :: cs) with
      | some n => simp [findAtLine, hm]
      | none =>
        simp only [findAtLine, hm]
        cases l₁ with
        | nil =>
          exfalso
          have hs : (matchAtLineHere (c :: cs)).isSome = true :=
            (matchAtLineHere_isSome (c :: cs)).mpr ⟨d, l₂, by simpa using heq, hd⟩
          rw [hm] at hs
          simp at hs
        | cons c1 l₁t =>
          rw [List.cons_append, List.cons_append] at heq
          injection heq with h1 h2
          exact ih.mpr ⟨l₁t, d, l₂, by simpa using h2, hd⟩

theorem ceil_div_four (n : Nat) : ⌈(n : ℚ) / 4⌉ = ((n + 3) / 4 : Nat) := by
  have h4 : (0 : ℚ) < 4 := by norm_num
  set k : Nat := (n + 3) / 4 with hk
  have h1 : 4 * k ≤ n + 3 := by omega
  have h2 : n ≤ 4 * k := by omega
  rw [Int.ceil_eq_iff]
  refine ⟨?_, ?_⟩
  · rw [lt_div_iff₀ h4]
    have h1q : ((4 * k : Nat) : ℚ) ≤ ((n + 3 : Nat) : ℚ) := by exact_mod_cast h1
    push_cast at h1q ⊢
    linarith
  · rw [div_le_iff₀ h4]
    have h2q : ((n : Nat) : ℚ) ≤ ((4 * k : Nat) : ℚ) := by exact_mod_cast h2
    push_cast at h2q ⊢
    linarith

theorem toFixed1_zero : toFixed1 0 = "0.0" := by decide

theorem runOpt_blank (env : CompressionEnv) (val : String) (opts : Options)
    (s : PipelineState) (h : isBlank val = true) :
    runOptimizationBody env val opts s =
      { s with output := "", restored := "", error := none } := by
  unfold runOptimizationBody
  rw [if_pos h]

theorem runOpt_parse_error (env : CompressionEnv) (val : String) (opts : Options)
    (s : PipelineState) (msg : String) (h : isBlank val = false)
    (hp : env.parse val = .error msg) :
    runOptimizationBody env val opts s = applyFailure msg s := by
  unfold runOptimizationBody
  rw [if_neg (by simp [h]), hp]

theorem runOpt_optimize_error (env : CompressionEnv) (val : String) (opts : Options)
    (s : PipelineState) (p : Json) (msg : String) (h : isBlank val = false)
    (hp : env.parse val = .ok p) (ho : env.optimize p opts = .error msg) :
    runOptimizationBody env val opts s = applyFailure msg s := by
  unfold runOptimizationBody
  rw [if_neg (by simp [h]), hp]
  dsimp only
  rw [ho]

theorem runOpt_restore_error (env : CompressionEnv) (val : String) (opts : Options)
    (s : PipelineState) (p o : Json) (msg : String) (h : isBlank val = false)
    (hp : env.parse val = .ok p) (ho : env.optimize p opts = .ok o)
    (hr : env.restore o = .error msg) :
    runOptimizationBody env val opts s = applyFailure msg s := by
  unfold runOptimizationBody
  rw [if_neg (by simp [h]), hp]
  dsimp only
  rw [ho]
  dsimp only
  rw [hr]

theorem runOpt_success (env : CompressionEnv) (val : String) (opts : Options)
    (s : PipelineState) (p o r : Json) (h : isBlank val = false)
    (hp : env.parse val = .ok p) (ho : env.optimize p opts = .ok o)
    (hr : env.restore o = .ok r) :
    runOptimizationBody env val opts s =
      { s with output := render2 "" o, restored := render2 "" r, error := none } := by
  unfold runOptimizationBody
  rw [if_neg (by simp [h]), hp]
  dsimp only
  rw [ho]
  dsimp only
  rw [hr]

/-- C1: after every completed recompute with the current input, and after a
clear, the pipeline state is exactly one of Valid (both serialized outputs
non-empty, error null), Invalid (outputs cleared, error populated) or
Empty (blank input, outputs cleared, error null); in no such state are a
populated compression result and a non-null editor error both present. -/
theorem c1_state_classification
    (env : CompressionEnv) (val : String) (opts : Options) (s : PipelineState)
    (hin : s.input = val) :
    ((IsValid (runOptimizationBody env val opts s) ∨
      IsInvalid (runOptimizationBody env val opts s) ∨
      IsEmptyState (runOptimizationBody env val opts s)) ∧
     ¬(resultPopulated (runOptimizationBody env val opts s) ∧
       (runOptimizationBody env val opts s).error ≠ none)) ∧
    IsEmptyState (handleClear s) := by
  subst hin
  refine ⟨?_, rfl, rfl, rfl, rfl⟩
  by_cases hb : isBlank s.input = true
  · rw [runOpt_blank env s.input opts s hb]
    refine ⟨Or.inr (Or.inr ⟨hb, rfl, rfl, rfl⟩), ?_⟩
    rintro ⟨⟨ho, -⟩, -⟩
    exact ho rfl
  · have hb' : isBlank s.input = false := by simpa using hb
    cases hp : env.parse s.input with
    | error msg =>
      rw [runOpt_parse_error env s.input opts s msg hb' hp]
      refine ⟨Or.inr (Or.inl ⟨rfl, rfl, by simp [applyFailure]⟩), ?_⟩
      rintro ⟨⟨ho, -⟩, -⟩
      exact ho rfl
    | ok p =>
      cases ho : env.optimize p opts with
      | error msg =>
        rw [runOpt_optimize_error env s.input opts s p msg hb' hp ho]
        refine ⟨Or.inr (Or.inl ⟨rfl, rfl, by simp [applyFailure]⟩), ?_⟩
        rintro ⟨⟨hz, -⟩, -⟩
        exact hz rfl
      | ok o =>
        cases hr : env.restore o with
        | error msg =>
          rw [runOpt_restore_error env s.input opts s p o msg hb' hp ho hr]
          refine ⟨Or.inr (Or.inl ⟨rfl, rfl, by simp [applyFailure]⟩), ?_⟩
          rintro ⟨⟨hz, -⟩, -⟩
          exact hz rfl
        | ok r =>
          rw [runOpt_success env s.input opts s p o r hb' hp ho hr]
          refine ⟨Or.inl ⟨⟨render2_ne_empty "" o, render2_ne_empty "" r⟩, rfl⟩, ?_⟩
          rintro ⟨-, he⟩
          exact he rfl

/-- Stub environment whose collaborators always succeed, used to witness
the pipeline theorems at concrete inputs. -/
def envId : CompressionEnv :=
  { parse := fun _ => .ok Json.null,
    optimize := fun j _ => .ok j,
    restore := fun j => .ok j }

/-- Witness for C1 at a concrete non-blank input under an always-succeeding
environment. -/
theorem c1_witness :
    ((IsValid (runOptimizationBody envId "x" ⟨false, false⟩ ⟨"x", "", "", none⟩) ∨
      IsInvalid (runOptimizationBody envId "x" ⟨false, false⟩ ⟨"x", "", "", none⟩) ∨
      IsEmptyState (runOptimizationBody envId "x" ⟨false, false⟩ ⟨"x", "", "", none⟩)) ∧
     ¬(resultPopulated (runOptimizationBody envId "x" ⟨false, false⟩ ⟨"x", "", "", none⟩) ∧
       (runOptimizationBody envId "x" ⟨false, false⟩ ⟨"x", "", "", none⟩).error ≠ none)) ∧
    IsEmptyState (handleClear ⟨"x", "", "", none⟩) :=
  c1_state_classification envId "x" ⟨false, false⟩ ⟨"x", "", "", none⟩ rfl

/-- C2: on any failing recompute over non-blank input — parse failure, or
a throw from optimize or restore — the pipeline records the thrown message
with the line number captured by the pattern `at line (\d+)` (defined
exactly when the message matches it), and clears both outputs; the
recompute body is total, so the failure never escapes. -/
theorem c2_failure_handling
    (env : CompressionEnv) (val : String) (opts : Options) (s : PipelineState)
    (msg : String) (hb : isBlank val = false)
    (hfail : env.parse val = .error msg ∨
      (∃ p, env.parse val = .ok p ∧ env.optimize p opts = .error msg) ∨
      (∃ p o, env.parse val = .ok p ∧ env.optimize p opts = .ok o ∧
        env.restore o = .error msg)) :
    runOptimizationBody env val opts s =
      { s with
        output := "", restored := "",
        error := some ⟨msg, extractLine msg⟩ } ∧
    ((extractLine msg).isSome = true ↔
      ∃ l₁ d l₂, msg.data = l₁ ++ atLinePattern ++ d :: l₂ ∧ d.isDigit = true) := by
  refine ⟨?_, findAtLine_isSome msg.data⟩
  rcases hfail with hp | ⟨p, hp, ho⟩ | ⟨p, o, hp, ho, hr⟩
  · rw [runOpt_parse_error env val opts s msg hb hp]; rfl
  · rw [runOpt_optimize_error env val opts s p msg hb hp ho]; rfl
  · rw [runOpt_restore_error env val opts s p o msg hb hp ho hr]; rfl

/-- Environment whose parse always throws a message carrying a line
number, used to witness the failure handling. -/
def envParseFail : CompressionEnv :=
  { parse := fun _ => .error "Unexpected token o in JSON at line 3",
    optimize := fun j _ => .ok j,
    restore := fun j => .ok j }

/-- Witness for C2: a concrete parse failure records the message, captures
line 3, and clears both outputs. -/
theorem c2_witness :
    (runOptimizationBody envParseFail "oops" ⟨false, false⟩ ⟨"oops", "out", "res", none⟩ =
      { (⟨"oops", "out", "res", none⟩ : PipelineState) with
        output := "", restored := "",
        error := some ⟨"Unexpected token o in JSON at line 3",
          extractLine "Unexpected token o in JSON at line 3"⟩ } ∧
     ((extractLine "Unexpected token o in JSON at line 3").isSome = true ↔
      ∃ l₁ d l₂, ("Unexpected token o in JSON at line 3" : String).data =
        l₁ ++ atLinePattern ++ d :: l₂ ∧ d.isDigit = true)) ∧
    extractLine "Unexpected token o in JSON at line 3" = some 3 :=
  ⟨c2_failure_handling envParseFail "oops" ⟨false, false⟩ ⟨"oops", "out", "res", none⟩
      "Unexpected token o in JSON at line 3" (by decide) (Or.inl rfl),
   by decide⟩

/-- C10: the clear handler resets the raw input and, in the same
synchronous step (it calls the state setters directly, not the debounced
recompute), clears both outputs and the editor error, reaching the Empty
state immediately; the recompute later scheduled by the input change is a
no-op on the cleared state. -/
theorem c10_clear_resets_empty (s : PipelineState) (env : CompressionEnv)
    (opts : Options) :
    handleClear s = { input := "", output := "", restored := "", error := none } ∧
    IsEmptyState (handleClear s) ∧
    runOptimizationBody env "" opts (handleClear s) = handleClear s := by
  refine ⟨rfl, ⟨rfl, rfl, rfl, rfl⟩, ?_⟩
  rw [runOpt_blank env "" opts (handleClear s) (by decide)]
  rfl

theorem runOpt_input (env : CompressionEnv) (val : String) (opts : Options)
    (s : PipelineState) :
    (runOptimizationBody env val opts s).input = s.input := by
  by_cases hb : isBlank val = true
  · rw [runOpt_blank env val opts s hb]
  · have hb' : isBlank val = false := by simpa using hb
    cases hp : env.parse val with
    | error msg => rw [runOpt_parse_error env val opts s msg hb' hp]; rfl
    | ok p =>
      cases ho : env.optimize p opts with
      | error msg => rw [runOpt_optimize_error env val opts s p msg hb' hp ho]; rfl
      | ok o =>
        cases hr : env.restore o with
        | error msg => rw [runOpt_restore_error env val opts s p o msg hb' hp ho hr]; rfl
        | ok r => rw [runOpt_success env val opts s p o r hb' hp ho hr]

/-- C3: the stats memo zeroes the output-side statistics (with the literal
`"0.0"` percentage) whenever an error is present, the input is blank, or
the output is empty — the condition that holds exactly in the Invalid and
Empty classifications, and is false on every Valid state a completed
recompute produces; otherwise the output size is the byte length of the
serialized optimized value held in the output pane, the output token count
is the token count of that string, and the percentage is the exact
`((inputTokens - outputTokens) / inputTokens) * 100` formatted to one
decimal, degraded to `"0.0"` whenever the input token count is zero, so no
division by zero is ever surfaced. -/
theorem c3_stats_derivation (tok : String → Nat) (s : PipelineState) :
    ((s.error.isSome || isBlank s.input || s.output.isEmpty) = true →
      stats tok s =
        { inputSize := s.input.utf8ByteSize, outputSize := 0, savings := "0.0",
          inputTokens := tok s.input, outputTokens := 0, tokenSavings := "0.0" }) ∧
    ((s.error.isSome || isBlank s.input || s.output.isEmpty) = false →
      (stats tok s).outputSize = s.output.utf8ByteSize ∧
      (stats tok s).outputTokens = tok s.output ∧
      (stats tok s).tokenSavings =
        (if tok s.input > 0 then
          toFixed1 (((tok s.input : ℚ) - (tok s.output : ℚ)) / (tok s.input : ℚ) * 100)
         else "0.0")) ∧
    (tok s.input = 0 → (stats tok s).tokenSavings = "0.0") ∧
    ((IsInvalid s ∨ IsEmptyState s) →
      (s.error.isSome || isBlank s.input || s.output.isEmpty) = true) ∧
    (∀ (env : CompressionEnv) (val : String) (opts : Options) (s₀ : PipelineState),
      s₀.input = val → IsValid (runOptimizationBody env val opts s₀) →
      ((runOptimizationBody env val opts s₀).error.isSome ||
        isBlank (runOptimizationBody env val opts s₀).input ||
        (runOptimizationBody env val opts s₀).output.isEmpty) = false) := by
  refine ⟨?_, ?_, ?_, ?_, ?_⟩
  · intro hg
    unfold stats
    rw [if_pos hg]
  · intro hg
    unfold stats
    rw [if_neg (by simp [hg])]
    dsimp only
    refine ⟨rfl, rfl, ?_⟩
    by_cases hc : tok s.input > 0
    · rw [if_pos hc, if_pos hc]
    · rw [if_neg hc, if_neg hc, toFixed1_zero]
  · intro h0
    unfold stats
    by_cases hg : (s.error.isSome || isBlank s.input || s.output.isEmpty) = true
    · rw [if_pos hg]
    · rw [if_neg hg]
      dsimp only
      rw [if_neg (by simp [h0]), toFixed1_zero]
  · rintro (⟨-, -, he⟩ | ⟨hb, -, -, -⟩)
    · cases hse : s.error with
      | none => exact absurd hse he
      | some e => simp [hse]
    · simp [hb]
  · intro env val opts s₀ hin hv
    have hval : isBlank val = false := by
      by_contra hb
      have hb' : isBlank val = true := by simpa using hb
      rw [runOpt_blank env val opts s₀ hb'] at hv
      exact hv.1.1 rfl
    have h1 : (runOptimizationBody env val opts s₀).error.isSome = false := by
      rw [hv.2]; rfl
    have h2 : isBlank (runOptimizationBody env val opts s₀).input = false := by
      rw [runOpt_input, hin, hval]
    have h3 : (runOptimizationBody env val opts s₀).output.isEmpty = false := by
      have := hv.1.1
      cases hoe : (runOptimizationBody env val opts s₀).output.isEmpty
      · rfl
      · exact absurd ((String.isEmpty_iff _).mp hoe) this
    rw [h1, h2, h3]
    rfl

/-- Witness for C3: a state with an empty output pane yields the zeroed
record, and a zero input token count yields the `"0.0"` percentage. -/
theorem c3_witness :
    stats heuristicTokens ⟨"x", "", "", none⟩ =
      { inputSize := 1, outputSize := 0, savings := "0.0",
        inputTokens := 1, outputTokens := 0, tokenSavings := "0.0" } ∧
    (stats (fun _ => 0) ⟨"x", "yy", "yy", none⟩).tokenSavings = "0.0" :=
  ⟨(c3_stats_derivation heuristicTokens ⟨"x", "", "", none⟩).1 (by decide),
   (c3_stats_derivation (fun _ => 0) ⟨"x", "yy", "yy", none⟩).2.2.1 rfl⟩

/-- Encoder stub that maps every string to a single token, an admissible
behavior of the external black-box encoder. -/
def encodeConst1 : String → Except String (List Nat) := fun _ => .ok [0]

/-- C4 counterexample: the stats memo of the monolithic App.tsx computes
its input token count by the inline heuristic `Math.ceil(length / 4)`, not
through the tokenizer adapter — on the input `"aaaaa"` it reports 2 tokens
while `countTokens` over an admissible encoder reports 1. -/
theorem c4_counterexample_heuristic :
    (statsApp ⟨"aaaaa", "", "", none⟩).inputTokens ≠
      countTokens encodeConst1 (some "aaaaa") := by decide

/-- C4 amended: in the App variant that imports the tokenizer adapter, the
derived input token count is `countTokens(RawInput)` and, outside the
zeroed branch, the output token count is `countTokens` of the serialized
optimized output; the monolithic App.tsx variant instead computes its
input token count by the inline heuristic `ceil(length / 4)`. -/
theorem c4_tokens_via_adapter (encode : String → Except String (List Nat))
    (s : PipelineState) :
    (statsModular encode s).inputTokens = countTokens encode (some s.input) ∧
    ((s.error.isSome || isBlank s.input || s.output.isEmpty) = false →
      (statsModular encode s).outputTokens = countTokens encode (some s.output)) ∧
    (statsApp s).inputTokens = heuristicTokens s.input := by
  refine ⟨?_, ?_, ?_⟩
  · unfold statsModular stats
    split <;> rfl
  · intro hg
    unfold statsModular stats
    rw [if_neg (by simp [hg])]
  · unfold statsApp stats
    split <;> rfl

/-- Witness for C4 (amended) at a concrete Valid-shaped state and the
single-token encoder stub. -/
theorem c4_witness :
    (statsModular encodeConst1 ⟨"x", "y", "y", none⟩).inputTokens =
      countTokens encodeConst1 (some "x") ∧
    (statsModular encodeConst1 ⟨"x", "y", "y", none⟩).outputTokens =
      countTokens encodeConst1 (some "y") ∧
    (statsApp ⟨"x", "y", "y", none⟩).inputTokens = heuristicTokens "x" :=
  ⟨(c4_tokens_via_adapter encodeConst1 ⟨"x", "y", "y", none⟩).1,
   (c4_tokens_via_adapter encodeConst1 ⟨"x", "y", "y", none⟩).2.1 (by decide),
   (c4_tokens_via_adapter encodeConst1 ⟨"x", "y", "y", none⟩).2.2⟩

/-- C6: `countTokens` is a total function into the natural numbers — it
never raises — with value 0 on absent or empty text, the encoder's token
count when encoding succeeds, and the ceiling `⌈length / 4⌉` fallback when
the encoder throws. -/
theorem c6_countTokens_total (encode : String → Except String (List Nat))
    (t : Option String) :
    0 ≤ countTokens encode t ∧
    countTokens encode none = 0 ∧
    countTokens encode (some "") = 0 ∧
    (∀ s toks, s.isEmpty = false → encode s = .ok toks →
      countTokens encode (some s) = toks.length) ∧
    (∀ s msg, s.isEmpty = false → encode s = .error msg →
      (countTokens encode (some s) : Int) = ⌈(s.length : ℚ) / 4⌉) := by
  refine ⟨Nat.zero_le _, rfl, rfl, ?_, ?_⟩
  · intro s toks hs he
    unfold countTokens
    dsimp only
    rw [if_neg (by simp [hs]), he]
  · intro s msg hs he
    unfold countTokens
    dsimp only
    rw [if_neg (by simp [hs]), he]
    exact (ceil_div_four s.length).symm

/-- Encoder stub that always throws, exercising the heuristic fallback. -/
def encodeFail : String → Except String (List Nat) := fun _ => .error "encoder failure"

/-- Witness for C6: under the always-throwing encoder, `"hello"` falls
back to `⌈5 / 4⌉ = 2` tokens without raising. -/
theorem c6_witness :
    countTokens encodeFail none = 0 ∧
    countTokens encodeFail (some "") = 0 ∧
    (countTokens encodeFail (some "hello") : Int) = ⌈(("hello" : String).length : ℚ) / 4⌉ ∧
    countTokens encodeFail (some "hello") = 2 :=
  ⟨(c6_countTokens_total encodeFail none).2.1,
   (c6_countTokens_total encodeFail none).2.2.1,
   (c6_countTokens_total encodeFail none).2.2.2.2 "hello" "encoder failure" (by decide) rfl,
   by decide⟩

theorem debounceRun_pending {α : Type} (wait : Nat) :
    ∀ (l : List (Nat × α)) (t : Nat) (a : α),
      List.Chain' (fun p q : Nat × α => p.1 < q.1 ∧ q.1 < p.1 + wait) ((t, a) :: l) →
      debounceRun wait l (some (a, t + wait)) = [(l.getLastD (t, a)).2] := by
  intro l
  induction l with
  | nil => intro t a _; rfl
  | cons hd tl ih =>
    intro t a hc
    obtain ⟨t2, a2⟩ := hd
    have hR : t2 < t + wait := (List.chain'_cons.mp hc).1.2
    have hc2 := (List.chain'_cons.mp hc).2
    show debounceRun wait ((t2, a2) :: tl) (some (a, t + wait)) = _
    unfold debounceRun
    rw [if_neg (by omega)]
    rw [List.getLastD_cons]
    exact ih t2 a2 hc2

/-- C5: in a burst of debounced calls whose successive gaps are all
shorter than the quiet window, every call cancels the pending scheduled
invocation and reschedules it, so the wrapped recompute executes exactly
once, with the arguments of the final call of the burst. -/
theorem c5_debounce_coalescing {α : Type} (wait t0 : Nat) (a0 : α)
    (rest : List (Nat × α))
    (hc : List.Chain' (fun p q : Nat × α => p.1 < q.1 ∧ q.1 < p.1 + wait)
      ((t0, a0) :: rest)) :
    debounceRun wait ((t0, a0) :: rest) none = [(rest.getLastD (t0, a0)).2] :=
  debounceRun_pending wait rest t0 a0 hc

/-- Witness for C5: three edits at 0ms, 100ms and 250ms under the 300ms
window execute the recompute once, with the third edit's text and
options. -/
theorem c5_witness :
    debounceRun 300
      [(0, ("a", (⟨false, false⟩ : Options))), (100, ("b", ⟨false, false⟩)),
        (250, ("c", ⟨true, false⟩))] none =
      [("c", (⟨true, false⟩ : Options))] :=
  c5_debounce_coalescing 300 0 ("a", (⟨false, false⟩ : Options))
    [(100, ("b", (⟨false, false⟩ : Options))), (250, ("c", (⟨true, false⟩ : Options)))]
    (by norm_num [List.chain'_cons])

/-- C9 (evidence for the code bug): the recompute-scheduling effect
returns no cleanup and the debounced function's cancel method is never
invoked, so a recompute pending at teardown survives unmounting unchanged
and still fires with its scheduled arguments — the pipeline does not
cancel pending work at unmount. -/
theorem c9_pending_fires_after_unmount :
    effectTeardown (some ((("[1,2]" : String), (⟨false, false⟩ : Options)), 300)) =
      some (("[1,2]", ⟨false, false⟩), 300) ∧
    debounceRun 300 [] (effectTeardown (some (("[1,2]", ⟨false, false⟩), 300))) =
      [("[1,2]", (⟨false, false⟩ : Options))] :=
  ⟨rfl, rfl⟩

/-- C7 counterexample: the options initializer of App.tsx passes the
stored string to the JSON decoder with no guard, so a corrupted stored
value makes the decoding failure escape the read instead of being
recovered by a fallback. -/
theorem c7_counterexample_options_escape :
    optionsInitialState (fun _ => Except.error "SyntaxError: Unexpected token")
      (fun _ => some "not json") =
      Except.error "SyntaxError: Unexpected token" := rfl

/-- C7 amended: the `usePersistentState` hook satisfies the read contract —
default when the key is absent, the decoded value when decoding succeeds,
and the raw stored string when decoding throws, so the hook never lets the
failure escape; the options initial state in App.tsx bypasses the hook and
does not recover a corrupted stored value. -/
theorem c7_persistent_read_contract (parse : String → Except String Json)
    (store : String → Option String) (key : String) (d : Json) :
    (store key = none → usePersistentStateInit parse store key d = d) ∧
    (∀ saved v, store key = some saved → parse saved = .ok v →
      usePersistentStateInit parse store key d = v) ∧
    (∀ saved msg, store key = some saved → parse saved = .error msg →
      usePersistentStateInit parse store key d = Json.str saved) := by
  refine ⟨?_, ?_, ?_⟩
  · intro h
    unfold usePersistentStateInit
    rw [h]
  · intro saved v h hp
    unfold usePersistentStateInit
    rw [h]
    dsimp only
    rw [hp]
  · intro saved msg h hp
    unfold usePersistentStateInit
    rw [h]
    dsimp only
    rw [hp]

/-- Witness for C7 (amended) on concrete stores: an absent key returns the
default, and a stored string that fails to decode is returned raw. -/
theorem c7_witness :
    usePersistentStateInit (fun _ => .ok Json.null) (fun _ => none) "k"
      (Json.bool true) = Json.bool true ∧
    usePersistentStateInit (fun _ => .error "bad") (fun _ => some "oops") "k"
      (Json.bool true) = Json.str "oops" :=
  ⟨(c7_persistent_read_contract (fun _ => .ok Json.null) (fun _ => none) "k"
      (Json.bool true)).1 rfl,
   (c7_persistent_read_contract (fun _ => .error "bad") (fun _ => some "oops") "k"
      (Json.bool true)).2.2 "oops" "bad" rfl rfl⟩

/-- C8: the verify diagnostic leaves the pipeline state unchanged in every
case; when both parses and the restore succeed it reports a pass exactly
when the compact serializations of the parsed input and the restored value
coincide, and any parse or restore failure is reported as the distinct
invalid-JSON verification error, not as an `EditorError`. -/
theorem c8_verify_diagnostic (env : CompressionEnv) (s : PipelineState) :
    (handleVerify env s).2 = s ∧
    (∀ pIn pOut r, env.parse s.input = .ok pIn → env.parse s.output = .ok pOut →
      env.restore pOut = .ok r →
      ((handleVerify env s).1 = .passed ↔ render pIn = render r)) ∧
    (∀ msg, env.parse s.input = .error msg →
      (handleVerify env s).1 = .invalidJson) ∧
    (∀ pIn msg, env.parse s.input = .ok pIn → env.parse s.output = .error msg →
      (handleVerify env s).1 = .invalidJson) ∧
    (∀ pIn pOut msg, env.parse s.input = .ok pIn → env.parse s.output = .ok pOut →
      env.restore pOut = .error msg → (handleVerify env s).1 = .invalidJson) := by
  refine ⟨?_, ?_, ?_, ?_, ?_⟩
  · unfold handleVerify
    cases env.parse s.input with
    | error m => rfl
    | ok pIn =>
      dsimp only
      cases env.parse s.output with
      | error m => rfl
      | ok pOut =>
        dsimp only
        cases env.restore pOut with
        | error m => rfl
        | ok r => dsimp only
  · intro pIn pOut r hin hout hr
    unfold handleVerify
    rw [hin]
    dsimp only
    rw [hout]
    dsimp only
    rw [hr]
    dsimp only
    by_cases hc : render pIn = render r
    · rw [if_pos hc]
      simp [hc]
    · rw [if_neg hc]
      simp [hc]
  · intro msg hin
    unfold handleVerify
    rw [hin]
  · intro pIn msg hin hout
    unfold handleVerify
    rw [hin]
    dsimp only
    rw [hout]
  · intro pIn pOut msg hin hout hr
    unfold handleVerify
    rw [hin]
    dsimp only
    rw [hout]
    dsimp only
    rw [hr]

/-- Witness for C8 under the always-succeeding environment: verification
passes (the restored value is the parsed input) and the state is left
untouched. -/
theorem c8_witness :
    ((handleVerify envId ⟨"a", "b", "c", none⟩).1 = .passed ↔
      render Json.null = render Json.null) ∧
    (handleVerify envId ⟨"a", "b", "c", none⟩).2 = ⟨"a", "b", "c", none⟩ :=
  ⟨(c8_verify_diagnostic envId ⟨"a", "b", "c", none⟩).2.1 Json.null Json.null Json.null
      rfl rfl rfl,
   (c8_verify_diagnostic envId ⟨"a", "b", "c", none⟩).1⟩

end CompressorUI
